import Mathlib

/-!
# pr-status-checker: the interaction classifier of `main.go`

A shallow embedding of `src/main.go`.  The decoded GraphQL answer (`PRQuery`) is the input;
the calls to `fmt.Println` / `fmt.Printf` made by `main`, in order, are the output.

* Go strings are byte sequences: `len` counts bytes and `s[:n]` slices bytes, so a string is
  modelled as the list of its bytes (`GoString`).
* `gh.DateTime` wraps `time.Time`; `Before` compares instants.  An instant is modelled as the
  integer number of nanoseconds since the zero `time.Time` (January 1, year 1, 00:00 UTC), so the
  zero value of `gh.DateTime` is `0`.
* The review requests reach `main` as the struct of main.go 50-63; `decodeReviewRequest` gives
  the struct that a request for a user or for a team fills.
-/

namespace PRStatusChecker

/-- A Go `string`: its bytes, in order. -/
abbrev GoString := List Nat

/-- The bytes of a string literal made of ASCII characters only (one byte per character). -/
def ascii (s : String) : GoString := s.toList.map Char.toNat

/-- An instant of `time.Time`, in nanoseconds since the zero `time.Time`. -/
abbrev DateTime := Int

/-- Nodes of `IssueCommentConnection` (main.go 23-29). -/
structure IssueComment where
  authorLogin : GoString
  publishedAt : DateTime
  body : GoString
deriving DecidableEq, Repr

/-- Nodes of `PullRequestReviewConnection` (main.go 36-43). -/
structure PRReview where
  authorLogin : GoString
  publishedAt : DateTime
  state : GoString
  body : GoString
deriving DecidableEq, Repr

/-- Nodes of `ReviewRequestConnection` (main.go 50-63): both inline fragments are fields of the
same Go struct, the one that does not apply keeps its zero value. -/
structure ReviewRequest where
  userLogin : GoString
  userName : GoString
  teamName : GoString
  asCodeOwner : Bool
deriving DecidableEq, Repr

/-- Nodes of `PullRequestConnection` (main.go 15-69). -/
structure PR where
  authorLogin : GoString
  number : Int
  permalink : GoString
  title : GoString
  issueComments : List IssueComment
  reviews : List PRReview
  reviewRequests : List ReviewRequest
deriving DecidableEq, Repr

/-- The part of `PRQuery` that `main` reads. -/
structure PRQuery where
  description : GoString
  nodes : List PR
deriving DecidableEq, Repr

/-- `Interaction` (main.go 78-81); the field `at` is spelled `at_`. -/
structure Interaction where
  body : GoString
  at_ : DateTime
deriving DecidableEq, Repr

/-- The Go zero value `Interaction{}`. -/
def Interaction.zero : Interaction := { body := [], at_ := 0 }

/-- `Interaction.After` (main.go 83-85). -/
def Interaction.After (i : Interaction) (t : DateTime) : Bool := decide (t < i.at_)

/-- `Interaction.Before` (main.go 87-89). -/
def Interaction.Before (i : Interaction) (t : DateTime) : Bool := decide (i.at_ < t)

/-- `shortBody` (main.go 198-204). -/
def shortBody (body : GoString) : GoString :=
  let shortLen := 100
  if body.length < shortLen then body
  else body.take shortLen ++ ascii "..."

/-- An operand of `fmt.Printf`. -/
inductive Arg where
  | int (n : Int)
  | str (s : GoString)
deriving DecidableEq, Repr

/-- One call to the `fmt` package: what `main` writes to standard output. -/
inductive Output where
  | println (s : GoString)
  | printf (format : String) (args : List Arg)
deriving DecidableEq, Repr

/-- The string literal of main.go 182, U+2705. -/
def checkMark : GoString := [0xE2, 0x9C, 0x85]

/-- The string literal of main.go 187, U+26A0 U+FE0F. -/
def warning : GoString := [0xE2, 0x9A, 0xA0, 0xEF, 0xB8, 0x8F]

/-- The line printed for a pull request of mine (main.go 126). -/
def myPRLine (pr : PR) : Output :=
  Output.printf "#%d, %s \n" [Arg.int pr.number, Arg.str pr.permalink]

/-- The first loop of `main` (main.go 124-132), appending to what was written so far. -/
def myPRsLoop (me : GoString) (prs : List PR) (out : List Output) : List Output :=
  prs.foldl (fun out pr => if pr.authorLogin = me then out ++ [myPRLine pr] else out) out

/-- The variables of one iteration of the second loop (main.go 142-147). -/
structure ScanState where
  hasReviewed : Bool
  hasCommented : Bool
  hasBeenRequestedToReview : Bool
  latestMeInteraction : Interaction
  latestAuthorInteraction : Interaction
deriving DecidableEq, Repr

/-- The variables as declared at main.go 142-147. -/
def ScanState.init : ScanState :=
  { hasReviewed := false, hasCommented := false, hasBeenRequestedToReview := false,
    latestMeInteraction := Interaction.zero, latestAuthorInteraction := Interaction.zero }

/-- Body of the loop over reviews (main.go 149-155). -/
def reviewStep (me : GoString) (st : ScanState) (review : PRReview) : ScanState :=
  if review.authorLogin = me then
    let st := { st with hasReviewed := true }
    if st.latestMeInteraction.Before review.publishedAt then
      { st with latestMeInteraction := { at_ := review.publishedAt, body := review.body } }
    else st
  else st

/-- Body of the loop over issue comments (main.go 159-172). -/
def commentStep (me prAuthor : GoString) (st : ScanState) (comment : IssueComment) : ScanState :=
  let st :=
    if comment.authorLogin = me then
      let st := { st with hasCommented := true }
      if st.latestMeInteraction.Before comment.publishedAt then
        { st with latestMeInteraction := { at_ := comment.publishedAt, body := comment.body } }
      else st
    else st
  if comment.authorLogin = prAuthor then
    if st.latestAuthorInteraction.Before comment.publishedAt then
      { st with latestAuthorInteraction := { at_ := comment.publishedAt, body := comment.body } }
    else st
  else st

/-- Body of the loop over review requests (main.go 176-178). -/
def requestStep (me : GoString) (st : ScanState) (reviewRequest : ReviewRequest) : ScanState :=
  if reviewRequest.teamName = ascii "Backend" ∨ reviewRequest.userLogin = me then
    { st with hasBeenRequestedToReview := true }
  else st

/-- The three scans of one pull request (main.go 141-179). -/
def scan (me : GoString) (pr : PR) : ScanState :=
  let prAuthor := pr.authorLogin
  let st := pr.reviews.foldl (reviewStep me) ScanState.init
  let st := pr.issueComments.foldl (commentStep me prAuthor) st
  pr.reviewRequests.foldl (requestStep me) st

/-- The values chosen at main.go 182-189. -/
structure Selected where
  status : GoString
  latestBody : GoString
  latestAuthor : GoString
deriving DecidableEq, Repr

/-- The choice of status, body and speaker (main.go 182-189). -/
def select (me prAuthor : GoString) (st : ScanState) : Selected :=
  let sel : Selected :=
    { status := checkMark, latestBody := st.latestMeInteraction.body, latestAuthor := me }
  if st.latestMeInteraction.Before st.latestAuthorInteraction.at_ then
    { sel with latestAuthor := prAuthor, status := warning,
               latestBody := st.latestAuthorInteraction.body }
  else sel

/-- The status line (main.go 190). -/
def statusLine (pr : PR) (sel : Selected) : Output :=
  Output.printf "%s #%d -- %s -- %s \n"
    [Arg.str sel.status, Arg.int pr.number, Arg.str pr.title, Arg.str pr.permalink]

/-- The snippet line (main.go 192). -/
def snippetLine (sel : Selected) : Output :=
  Output.printf "\t%s - %s\n" [Arg.str sel.latestAuthor, Arg.str (shortBody sel.latestBody)]

/-- What one iteration of the second loop writes (main.go 136-194). -/
def engagedBody (me : GoString) (pr : PR) : List Output :=
  if pr.authorLogin = me then []
  else
    let st := scan me pr
    if st.hasReviewed || st.hasCommented || st.hasBeenRequestedToReview then
      let sel := select me pr.authorLogin st
      let out := [statusLine pr sel]
      if sel.latestBody.length ≠ 0 then out ++ [snippetLine sel] else out
    else []

/-- The second loop of `main` (main.go 135-195), appending to what was written so far. -/
def engagedLoop (me : GoString) (prs : List PR) (out : List Output) : List Output :=
  prs.foldl (fun out pr => out ++ engagedBody me pr) out

/-- What `main` writes after a successful query (main.go 121-195). -/
def mainOutput (me : GoString) (q : PRQuery) : List Output :=
  let out := [Output.println q.description]
  let out := out ++ [Output.println (ascii "My PRs\n")]
  let out := myPRsLoop me q.nodes out
  let out := out ++ [Output.println (ascii "\nPRs engaged with\n")]
  engagedLoop me q.nodes out

/-- The "My PRs" section: what the first loop writes. -/
def myPRsSection (me : GoString) (prs : List PR) : List Output := myPRsLoop me prs []

/-- The "PRs engaged with" section: what the second loop writes. -/
def engagedSection (me : GoString) (prs : List PR) : List Output := engagedLoop me prs []

/-! ## The interactions of a party, as the scans visit them -/

/-- The update of a running latest interaction (main.go 151-154, 161-164, 168-171): the scanned
interaction replaces the running one when the running one is strictly before it. -/
def keepLater (cur x : Interaction) : Interaction := if cur.Before x.at_ then x else cur

/-- The interaction a review stands for. -/
def PRReview.interaction (r : PRReview) : Interaction := { body := r.body, at_ := r.publishedAt }

/-- The interaction an issue comment stands for. -/
def IssueComment.interaction (c : IssueComment) : Interaction :=
  { body := c.body, at_ := c.publishedAt }

/-- The interactions of `me` that the scans visit, in scan order: the fetched reviews of `me`,
then the fetched issue comments of `me`. -/
def meInteractions (me : GoString) (pr : PR) : List Interaction :=
  (pr.reviews.filter (fun r => decide (r.authorLogin = me))).map PRReview.interaction
    ++ (pr.issueComments.filter (fun c => decide (c.authorLogin = me))).map
        IssueComment.interaction

/-- The interactions of the author of the pull request that the scans visit, in scan order: the
fetched issue comments of the author. -/
def authorInteractions (pr : PR) : List Interaction :=
  (pr.issueComments.filter (fun c => decide (c.authorLogin = pr.authorLogin))).map
    IssueComment.interaction

/-! ## Sample inputs -/

/-- Days from January 1 of year 1 to the given day of the proleptic Gregorian calendar. -/
def daysSinceYearOne (year month day : Nat) : Nat :=
  let y := year - 1
  let leap := (year % 4 = 0 ∧ year % 100 ≠ 0) ∨ year % 400 = 0
  let before := [0, 31, 59, 90, 120, 151, 181, 212, 243, 273, 304, 334].getD (month - 1) 0
  365 * y + y / 4 - y / 100 + y / 400 + before + (if leap ∧ 2 < month then 1 else 0) + (day - 1)

/-- The instant `<year>-<month>-<day>T00:00:00Z`. -/
def midnightUTC (year month day : Nat) : DateTime :=
  (daysSinceYearOne year month day : Int) * 86400 * 1000000000

/-- The body of the author in the scenario of pull request 10. -/
def aliceBody : GoString :=
  ascii "addressed your comment, please re-review now please take a look thanks very much for your time today"

/-- Pull request 10 of the scenario: author "alice", one review of "bob" published at `tBob`
with body "looks fine", one issue comment of "alice" published at `tAlice`. -/
def pr10 (tBob tAlice : DateTime) (title permalink state : GoString) : PR :=
  { authorLogin := ascii "alice", number := 10, permalink := permalink, title := title,
    issueComments := [{ authorLogin := ascii "alice", publishedAt := tAlice, body := aliceBody }],
    reviews := [{ authorLogin := ascii "bob", publishedAt := tBob, state := state,
                  body := ascii "looks fine" }],
    reviewRequests := [] }

/-- A pull request of "bob" on which "bob" commented and whose review is requested from "bob"
and from the team "Backend". -/
def pr11 : PR :=
  { authorLogin := ascii "bob", number := 11, permalink := ascii "https://h/r/pull/11",
    title := ascii "mine",
    issueComments := [{ authorLogin := ascii "bob", publishedAt := 5, body := ascii "ping" }],
    reviews := [],
    reviewRequests :=
      [{ userLogin := ascii "bob", userName := ascii "Bob", teamName := [], asCodeOwner := false },
       { userLogin := [], userName := [], teamName := ascii "Backend", asCodeOwner := true }] }

/-- A pull request of "alice" with a comment of "carol" and review requests for "carol" and for
the team "Frontend" only. -/
def pr12 : PR :=
  { authorLogin := ascii "alice", number := 12, permalink := ascii "https://h/r/pull/12",
    title := ascii "other",
    issueComments := [{ authorLogin := ascii "carol", publishedAt := 7, body := ascii "hm" }],
    reviews := [],
    reviewRequests :=
      [{ userLogin := ascii "carol", userName := [], teamName := [], asCodeOwner := false },
       { userLogin := [], userName := [], teamName := ascii "Frontend", asCodeOwner := false }] }

/-- A pull request of "alice" whose only link to "bob" is a review request for the team
"Backend". -/
def pr13 : PR :=
  { authorLogin := ascii "alice", number := 13, permalink := ascii "https://h/r/pull/13",
    title := ascii "team",
    issueComments := [],
    reviews := [],
    reviewRequests :=
      [{ userLogin := [], userName := [], teamName := ascii "Backend", asCodeOwner := false }] }

/-- The invariant of the two running interactions: neither is before the zero instant, and one
that is at the zero instant has an empty body. -/
def RunningInv (st : ScanState) : Prop :=
  (0 ≤ st.latestMeInteraction.at_
      ∧ (st.latestMeInteraction.at_ = 0 → st.latestMeInteraction.body = []))
    ∧ (0 ≤ st.latestAuthorInteraction.at_
      ∧ (st.latestAuthorInteraction.at_ = 0 → st.latestAuthorInteraction.body = []))

/-- A pull request of "alice" on which "bob" has a review with an empty body. -/
def pr14 : PR :=
  { authorLogin := ascii "alice", number := 14, permalink := ascii "https://h/r/pull/14",
    title := ascii "quiet",
    issueComments := [],
    reviews := [{ authorLogin := ascii "bob", publishedAt := 9, state := ascii "COMMENTED",
                  body := [] }],
    reviewRequests := [] }

/-- A pull request of "alice" with a review of "bob" at instant 3, issue comments of "bob" at
instants 5 and 4 and issue comments of "alice" at instants 2 and 6. -/
def pr15 : PR :=
  { authorLogin := ascii "alice", number := 15, permalink := ascii "https://h/r/pull/15",
    title := ascii "talk",
    issueComments :=
      [{ authorLogin := ascii "bob", publishedAt := 5, body := ascii "b5" },
       { authorLogin := ascii "alice", publishedAt := 2, body := ascii "a2" },
       { authorLogin := ascii "bob", publishedAt := 4, body := ascii "b4" },
       { authorLogin := ascii "alice", publishedAt := 6, body := ascii "a6" }],
    reviews := [{ authorLogin := ascii "bob", publishedAt := 3, state := ascii "COMMENTED",
                  body := ascii "b3" }],
    reviewRequests := [] }

/-- The pull request `pr15` with its issue comments fetched in the opposite order. -/
def pr15Reversed : PR := { pr15 with issueComments := pr15.issueComments.reverse }

/-! ## Text and fetched review requests before they reach `main` -/

/-- The bytes of a text: the UTF-8 encoding of its characters, which is what a Go string decoded
from the answer of the server holds. -/
def utf8 (s : String) : GoString :=
  s.toList.flatMap (fun c => (String.utf8EncodeChar c).map UInt8.toNat)

/-- The requested reviewer of a review request as the server has it: a user, with login and
display name, or a team, with its name. -/
inductive RequestedReviewer where
  | user (login name : GoString)
  | team (name : GoString)
deriving DecidableEq, Repr

/-- A review request as the server has it. -/
structure FetchedReviewRequest where
  requestedReviewer : RequestedReviewer
  asCodeOwner : Bool
deriving DecidableEq, Repr

/-- How a fetched review request fills the struct of main.go 50-63.  The query asks for `login`
and `name` on a user and for `name` on a team, and nothing that tells the two apart; the answer
holds the keys of the fragment that applies, and the client stores the value of a key in every
field of that name, in both fragments.  So `Team.Name` receives the display name of a user as
well as the name of a team; `User.Login` keeps its zero value for a team. -/
def decodeReviewRequest (rq : FetchedReviewRequest) : ReviewRequest :=
  match rq.requestedReviewer with
  | RequestedReviewer.user login name =>
      { userLogin := login, userName := name, teamName := name, asCodeOwner := rq.asCodeOwner }
  | RequestedReviewer.team name =>
      { userLogin := [], userName := name, teamName := name, asCodeOwner := rq.asCodeOwner }

/-- A fetched review request targets `me` or the team "Backend": its reviewer is the user whose
login is `me`, or the team whose name is "Backend". -/
def targetsMeOrBackend (me : GoString) (rq : FetchedReviewRequest) : Bool :=
  match rq.requestedReviewer with
  | RequestedReviewer.user login _ => decide (login = me)
  | RequestedReviewer.team name => decide (name = ascii "Backend")

/-- The review requests fetched for `pr16`: one, for the user "carol" whose display name is
"Backend". -/
def pr16Requests : List FetchedReviewRequest :=
  [{ requestedReviewer := RequestedReviewer.user (ascii "carol") (ascii "Backend"),
     asCodeOwner := false }]

/-- A pull request of "alice" without review or issue comment, whose review is requested from
the user "carol" whose display name is "Backend". -/
def pr16 : PR :=
  { authorLogin := ascii "alice", number := 16, permalink := ascii "https://h/r/pull/16",
    title := ascii "named",
    issueComments := [],
    reviews := [],
    reviewRequests := pr16Requests.map decodeReviewRequest }

/-- The review requests fetched for `pr17`: for the team "Frontend" and for the user "dave"
whose display name is "Backend". -/
def pr17Requests : List FetchedReviewRequest :=
  [{ requestedReviewer := RequestedReviewer.team (ascii "Frontend"), asCodeOwner := true },
   { requestedReviewer := RequestedReviewer.user (ascii "dave") (ascii "Backend"),
     asCodeOwner := false }]

/-- A pull request of "alice" with an issue comment of "alice" only, whose review is requested
from the team "Frontend" and from the user "dave" whose display name is "Backend". -/
def pr17 : PR :=
  { authorLogin := ascii "alice", number := 17, permalink := ascii "https://h/r/pull/17",
    title := ascii "named too",
    issueComments := [{ authorLogin := ascii "alice", publishedAt := 8, body := ascii "up" }],
    reviews := [],
    reviewRequests := pr17Requests.map decodeReviewRequest }

/-- A text of 60 characters, each the letter e with acute accent (U+00E9, two bytes). -/
def sixtyAccents : String := String.mk (List.replicate 60 (Char.ofNat 233))

/-! ## The two loops as concatenations of per-iteration output -/

theorem myPRsLoop_eq (me : GoString) (prs : List PR) (out : List Output) :
    myPRsLoop me prs out
      = out ++ (prs.filter (fun pr => decide (pr.authorLogin = me))).map myPRLine := by
  induction prs generalizing out with
  | nil => simp [myPRsLoop]
  | cons pr prs ih =>
    have h := ih (if pr.authorLogin = me then out ++ [myPRLine pr] else out)
    unfold myPRsLoop at h ⊢
    rw [List.foldl_cons, h]
    by_cases hp : pr.authorLogin = me <;> simp [hp]

theorem engagedLoop_eq (me : GoString) (prs : List PR) (out : List Output) :
    engagedLoop me prs out = out ++ prs.flatMap (engagedBody me) := by
  induction prs generalizing out with
  | nil => simp [engagedLoop]
  | cons pr prs ih =>
    have h := ih (out ++ engagedBody me pr)
    unfold engagedLoop at h ⊢
    rw [List.foldl_cons, h]
    simp

theorem myPRsSection_append (me : GoString) (a b : List PR) :
    myPRsSection me (a ++ b) = myPRsSection me a ++ myPRsSection me b := by
  simp [myPRsSection, myPRsLoop_eq]

theorem engagedSection_append (me : GoString) (a b : List PR) :
    engagedSection me (a ++ b) = engagedSection me a ++ engagedSection me b := by
  simp [engagedSection, engagedLoop_eq]

theorem engagedSection_cons (me : GoString) (pr : PR) (b : List PR) :
    engagedSection me (pr :: b) = engagedBody me pr ++ engagedSection me b := by
  simp [engagedSection, engagedLoop_eq]

theorem myPRsSection_cons (me : GoString) (pr : PR) (b : List PR) :
    myPRsSection me (pr :: b)
      = (if pr.authorLogin = me then [myPRLine pr] else []) ++ myPRsSection me b := by
  by_cases hp : pr.authorLogin = me <;> simp [myPRsSection, myPRsLoop_eq, hp]

/-! ## The three scans of one iteration -/

theorem foldl_reviewStep (me : GoString) (reviews : List PRReview) (st : ScanState) :
    reviews.foldl (reviewStep me) st =
      { st with
        hasReviewed := st.hasReviewed || reviews.any (fun r => decide (r.authorLogin = me)),
        latestMeInteraction :=
          ((reviews.filter (fun r => decide (r.authorLogin = me))).map
            PRReview.interaction).foldl keepLater st.latestMeInteraction } := by
  induction reviews generalizing st with
  | nil => simp
  | cons r rs ih =>
    rw [List.foldl_cons, ih]
    by_cases hr : r.authorLogin = me
    · by_cases hb : st.latestMeInteraction.at_ < r.publishedAt <;>
        simp [reviewStep, hr, hb, keepLater, Interaction.Before, PRReview.interaction]
    · simp [reviewStep, hr]

theorem foldl_commentStep (me prAuthor : GoString) (comments : List IssueComment)
    (st : ScanState) :
    comments.foldl (commentStep me prAuthor) st =
      { st with
        hasCommented := st.hasCommented || comments.any (fun c => decide (c.authorLogin = me)),
        latestMeInteraction :=
          ((comments.filter (fun c => decide (c.authorLogin = me))).map
            IssueComment.interaction).foldl keepLater st.latestMeInteraction,
        latestAuthorInteraction :=
          ((comments.filter (fun c => decide (c.authorLogin = prAuthor))).map
            IssueComment.interaction).foldl keepLater st.latestAuthorInteraction } := by
  induction comments generalizing st with
  | nil => simp
  | cons c cs ih =>
    rw [List.foldl_cons, ih]
    obtain ⟨a, t, b⟩ := c
    by_cases hm : a = me <;> by_cases ha : a = prAuthor <;>
      by_cases hb : st.latestMeInteraction.at_ < t <;>
      by_cases hc : st.latestAuthorInteraction.at_ < t <;>
      (try subst hm) <;> (try subst ha) <;>
      simp [commentStep, *, keepLater, Interaction.Before, IssueComment.interaction]

theorem foldl_requestStep (me : GoString) (requests : List ReviewRequest) (st : ScanState) :
    requests.foldl (requestStep me) st =
      { st with
        hasBeenRequestedToReview := st.hasBeenRequestedToReview ||
          requests.any (fun rr => decide (rr.teamName = ascii "Backend" ∨ rr.userLogin = me)) } := by
  induction requests generalizing st with
  | nil => simp
  | cons rr rs ih =>
    rw [List.foldl_cons, ih]
    by_cases h : rr.teamName = ascii "Backend" ∨ rr.userLogin = me
    · rcases h with h | h <;> simp [requestStep, h]
    · have h1 : ¬ rr.teamName = ascii "Backend" := fun e => h (Or.inl e)
      have h2 : ¬ rr.userLogin = me := fun e => h (Or.inr e)
      simp [requestStep, h1, h2]

/-- The state after the three scans, field by field. -/
theorem scan_eq (me : GoString) (pr : PR) :
    scan me pr =
      { hasReviewed := pr.reviews.any (fun r => decide (r.authorLogin = me)),
        hasCommented := pr.issueComments.any (fun c => decide (c.authorLogin = me)),
        hasBeenRequestedToReview :=
          pr.reviewRequests.any
            (fun rr => decide (rr.teamName = ascii "Backend" ∨ rr.userLogin = me)),
        latestMeInteraction := (meInteractions me pr).foldl keepLater Interaction.zero,
        latestAuthorInteraction :=
          (authorInteractions pr).foldl keepLater Interaction.zero } := by
  simp [scan, foldl_reviewStep, foldl_commentStep, foldl_requestStep, ScanState.init,
    meInteractions, authorInteractions, List.foldl_append]

/-! ## The running latest interaction -/

theorem keepLater_at (cur x : Interaction) : (keepLater cur x).at_ = max cur.at_ x.at_ := by
  unfold keepLater Interaction.Before
  by_cases h : cur.at_ < x.at_
  · simp [h, max_eq_right (le_of_lt h)]
  · simp [h, max_eq_left (not_lt.mp h)]

theorem foldl_keepLater_at (l : List Interaction) (seed : Interaction) :
    (l.foldl keepLater seed).at_ = (l.map Interaction.at_).foldl max seed.at_ := by
  induction l generalizing seed with
  | nil => rfl
  | cons x xs ih => simp [List.foldl_cons, ih, keepLater_at]

theorem foldl_keepLater_seed_le (l : List Interaction) (seed : Interaction) :
    seed.at_ ≤ (l.foldl keepLater seed).at_ := by
  induction l generalizing seed with
  | nil => exact le_refl _
  | cons x xs ih =>
    rw [List.foldl_cons]
    refine le_trans ?_ (ih (keepLater seed x))
    rw [keepLater_at]
    exact le_max_left _ _

theorem foldl_keepLater_ge (l : List Interaction) (seed : Interaction) :
    ∀ i ∈ l, i.at_ ≤ (l.foldl keepLater seed).at_ := by
  induction l generalizing seed with
  | nil => intro i hi; cases hi
  | cons x xs ih =>
    intro i hi
    rw [List.foldl_cons]
    rcases List.mem_cons.mp hi with h | h
    · subst h
      refine le_trans ?_ (foldl_keepLater_seed_le xs (keepLater seed i))
      rw [keepLater_at]
      exact le_max_right _ _
    · exact ih (keepLater seed x) i h

theorem foldl_keepLater_mem (l : List Interaction) (seed : Interaction) :
    l.foldl keepLater seed = seed ∨
      (l.foldl keepLater seed ∈ l ∧ seed.at_ < (l.foldl keepLater seed).at_) := by
  induction l generalizing seed with
  | nil => exact Or.inl rfl
  | cons x xs ih =>
    rw [List.foldl_cons]
    by_cases h : seed.at_ < x.at_
    · have hk : keepLater seed x = x := by simp [keepLater, Interaction.Before, h]
      rw [hk]
      rcases ih x with h1 | ⟨h1, h2⟩
      · rw [h1]; exact Or.inr ⟨List.mem_cons_self _ _, h⟩
      · exact Or.inr ⟨List.mem_cons_of_mem _ h1, lt_trans h h2⟩
    · have hk : keepLater seed x = seed := by simp [keepLater, Interaction.Before, h]
      rw [hk]
      rcases ih seed with h1 | ⟨h1, h2⟩
      · exact Or.inl h1
      · exact Or.inr ⟨List.mem_cons_of_mem _ h1, h2⟩

/-- Starting from the zero value, a running interaction at the zero instant has an empty body. -/
theorem foldl_keepLater_zero_body (l : List Interaction)
    (h : (l.foldl keepLater Interaction.zero).at_ = 0) :
    (l.foldl keepLater Interaction.zero).body = [] := by
  rcases foldl_keepLater_mem l Interaction.zero with h1 | ⟨_, h2⟩
  · rw [h1]; rfl
  · rw [h] at h2; exact absurd h2 (lt_irrefl _)

theorem foldl_keepLater_perm (l l' : List Interaction) (seed : Interaction) (hp : l'.Perm l)
    (hnd : (l.map Interaction.at_).Nodup) :
    l'.foldl keepLater seed = l.foldl keepLater seed := by
  rcases foldl_keepLater_mem l seed with h1 | ⟨h1, h2⟩ <;>
    rcases foldl_keepLater_mem l' seed with h1' | ⟨h1', h2'⟩
  · rw [h1, h1']
  · have := foldl_keepLater_ge l seed _ (hp.mem_iff.mp h1')
    rw [h1] at this
    exact absurd h2' (not_lt.mpr this)
  · have := foldl_keepLater_ge l' seed _ (hp.mem_iff.mpr h1)
    rw [h1'] at this
    exact absurd h2 (not_lt.mpr this)
  · have ha := foldl_keepLater_ge l seed _ (hp.mem_iff.mp h1')
    have hb := foldl_keepLater_ge l' seed _ (hp.mem_iff.mpr h1)
    exact List.inj_on_of_nodup_map hnd (hp.mem_iff.mp h1') h1 (le_antisymm ha hb)

/-! ## Engagement -/

/-- The three flags of main.go 181, read off the fetched lists. -/
theorem engaged_flags_iff (me : GoString) (pr : PR) :
    (((scan me pr).hasReviewed || (scan me pr).hasCommented
        || (scan me pr).hasBeenRequestedToReview) = true)
      ↔ ((∃ r ∈ pr.reviews, r.authorLogin = me) ∨ (∃ c ∈ pr.issueComments, c.authorLogin = me)
          ∨ (∃ rr ∈ pr.reviewRequests, rr.userLogin = me ∨ rr.teamName = ascii "Backend")) := by
  rw [scan_eq]
  simp only [Bool.or_eq_true, List.any_eq_true, decide_eq_true_eq]
  constructor
  · rintro ((h | h) | ⟨rr, h1, h2⟩)
    · exact Or.inl h
    · exact Or.inr (Or.inl h)
    · exact Or.inr (Or.inr ⟨rr, h1, h2.symm⟩)
  · rintro (h | h | ⟨rr, h1, h2⟩)
    · exact Or.inl (Or.inl h)
    · exact Or.inl (Or.inr h)
    · exact Or.inr ⟨rr, h1, h2.symm⟩

/-- What an iteration writes for a pull request of somebody else that passes main.go 181. -/
theorem engagedBody_engaged (me : GoString) (pr : PR) (hne : pr.authorLogin ≠ me)
    (heng : ((scan me pr).hasReviewed || (scan me pr).hasCommented
        || (scan me pr).hasBeenRequestedToReview) = true) :
    engagedBody me pr =
      statusLine pr (select me pr.authorLogin (scan me pr)) ::
        (if (select me pr.authorLogin (scan me pr)).latestBody = [] then []
         else [snippetLine (select me pr.authorLogin (scan me pr))]) := by
  unfold engagedBody
  rw [if_neg hne]
  simp only [heng, if_true]
  by_cases hb : (select me pr.authorLogin (scan me pr)).latestBody = []
  · simp [hb]
  · simp [hb]

/-- What an iteration writes for a pull request of somebody else that fails main.go 181. -/
theorem engagedBody_not_engaged (me : GoString) (pr : PR)
    (heng : ¬ ((scan me pr).hasReviewed || (scan me pr).hasCommented
        || (scan me pr).hasBeenRequestedToReview) = true) :
    engagedBody me pr = [] := by
  unfold engagedBody
  by_cases hne : pr.authorLogin = me
  · rw [if_pos hne]
  · rw [if_neg hne]
    simp only [heng]
    rfl

theorem engagedBody_ne_nil_iff (me : GoString) (pr : PR) (hne : pr.authorLogin ≠ me) :
    engagedBody me pr ≠ [] ↔
      ((scan me pr).hasReviewed || (scan me pr).hasCommented
        || (scan me pr).hasBeenRequestedToReview) = true := by
  constructor
  · intro h
    by_contra hc
    exact h (engagedBody_not_engaged me pr hc)
  · intro h
    rw [engagedBody_engaged me pr hne h]
    exact List.cons_ne_nil _ _

/-! ## The claims -/

/-- C1: a pull request whose author login equals `me` writes exactly one line, the `Printf` of
main.go 126 with its number and permalink, in the "My PRs" section, and writes nothing in the
"PRs engaged with" section, whatever its comments, reviews and review requests are. -/
theorem C1_authored_only_in_my_prs (me : GoString) (before after : List PR) (pr : PR)
    (h : pr.authorLogin = me) :
    myPRsSection me (before ++ pr :: after)
        = myPRsSection me before
            ++ [Output.printf "#%d, %s \n" [Arg.int pr.number, Arg.str pr.permalink]]
            ++ myPRsSection me after
      ∧ engagedBody me pr = []
      ∧ engagedSection me (before ++ pr :: after)
          = engagedSection me before ++ engagedSection me after := by
  refine ⟨?_, ?_, ?_⟩
  · rw [myPRsSection_append, myPRsSection_cons, if_pos h]
    simp [myPRLine]
  · simp [engagedBody, h]
  · rw [engagedSection_append, engagedSection_cons]
    simp [engagedBody, h]

theorem C1_authored_only_in_my_prs_witness :
    pr11.authorLogin = ascii "bob"
      ∧ myPRsSection (ascii "bob") ([pr12] ++ pr11 :: [pr13])
          = myPRsSection (ascii "bob") [pr12]
              ++ [Output.printf "#%d, %s \n" [Arg.int pr11.number, Arg.str pr11.permalink]]
              ++ myPRsSection (ascii "bob") [pr13]
      ∧ engagedBody (ascii "bob") pr11 = []
      ∧ engagedSection (ascii "bob") ([pr12] ++ pr11 :: [pr13])
          = engagedSection (ascii "bob") [pr12] ++ engagedSection (ascii "bob") [pr13] :=
  ⟨by decide, C1_authored_only_in_my_prs (ascii "bob") [pr12] [pr13] pr11 (by decide)⟩

/-- C8: the "My PRs" section is the (number, permalink) projection of the sub-list of the fetched
pull requests whose author login equals `me`, in fetch order, one `Printf` of main.go 126 per
such pull request and nothing for any other. -/
theorem C8_my_prs_filter_project (me : GoString) (prs : List PR) :
    myPRsSection me prs
      = (((prs.filter (fun pr => decide (pr.authorLogin = me))).map
            (fun pr => (pr.number, pr.permalink))).map
          (fun p => Output.printf "#%d, %s \n" [Arg.int p.1, Arg.str p.2])) := by
  simp [myPRsSection, myPRsLoop_eq, myPRLine, List.map_map, Function.comp_def]

/-- C2 (the code departs from it): the pull request `pr16` of "alice" has no review and no issue
comment of "bob" and its one review request is for the user "carol", not for "bob" and not for a
team; the display name of "carol" is "Backend", it fills `Team.Name`, and the pull request is
written in the "PRs engaged with" section. -/
theorem C2_user_named_backend_is_engaged :
    pr16.authorLogin ≠ ascii "bob"
      ∧ (¬ ∃ r ∈ pr16.reviews, r.authorLogin = ascii "bob")
      ∧ (¬ ∃ c ∈ pr16.issueComments, c.authorLogin = ascii "bob")
      ∧ pr16.reviewRequests = pr16Requests.map decodeReviewRequest
      ∧ (∀ rq ∈ pr16Requests, targetsMeOrBackend (ascii "bob") rq = false)
      ∧ engagedSection (ascii "bob") [pr16]
          = [Output.printf "%s #%d -- %s -- %s \n"
              [Arg.str checkMark, Arg.int 16, Arg.str pr16.title, Arg.str pr16.permalink]] := by
  decide

/-- C9 (the code departs from it): of the two review requests of the pull request `pr17`, one
is for the team "Frontend" and one for the user "dave", whose login is not "bob"; the display
name of "dave" is "Backend", it fills `Team.Name`, the flag `hasBeenRequestedToReview` is set
and the pull request, on which "bob" has no review and no issue comment, is written as
engaged. -/
theorem C9_user_named_backend_sets_flag :
    pr17.authorLogin ≠ ascii "bob"
      ∧ (¬ ∃ r ∈ pr17.reviews, r.authorLogin = ascii "bob")
      ∧ (¬ ∃ c ∈ pr17.issueComments, c.authorLogin = ascii "bob")
      ∧ pr17.reviewRequests = pr17Requests.map decodeReviewRequest
      ∧ (∀ rq ∈ pr17Requests, targetsMeOrBackend (ascii "bob") rq = false)
      ∧ (scan (ascii "bob") pr17).hasBeenRequestedToReview = true
      ∧ engagedBody (ascii "bob") pr17 ≠ [] := by
  decide

/-- The flag `hasBeenRequestedToReview` over fetched review requests: it is set exactly when some
request is for a user or a team whose name is "Backend", or for the user whose login is `me`, or
for a team while `me` is the empty string. -/
theorem requested_flag_fetched_iff (me : GoString) (pr : PR) (rqs : List FetchedReviewRequest)
    (h : pr.reviewRequests = rqs.map decodeReviewRequest) :
    (scan me pr).hasBeenRequestedToReview = true ↔
      ∃ rq ∈ rqs,
        match rq.requestedReviewer with
        | RequestedReviewer.user login name => name = ascii "Backend" ∨ login = me
        | RequestedReviewer.team name => name = ascii "Backend" ∨ me = [] := by
  have hflag : (scan me pr).hasBeenRequestedToReview = true ↔
      ∃ rr ∈ pr.reviewRequests, rr.teamName = ascii "Backend" ∨ rr.userLogin = me := by
    rw [scan_eq]
    simp only [List.any_eq_true, decide_eq_true_eq]
  rw [hflag, h]
  constructor
  · rintro ⟨rr, hrr, hc⟩
    obtain ⟨rq, hrq, rfl⟩ := List.mem_map.mp hrr
    refine ⟨rq, hrq, ?_⟩
    obtain ⟨rv, co⟩ := rq
    cases rv with
    | user login name => simpa [decodeReviewRequest] using hc
    | team name =>
      rcases hc with hc | hc
      · exact Or.inl (by simpa [decodeReviewRequest] using hc)
      · exact Or.inr (by simpa [decodeReviewRequest] using hc.symm)
  · rintro ⟨rq, hrq, hc⟩
    refine ⟨decodeReviewRequest rq, List.mem_map.mpr ⟨rq, hrq, rfl⟩, ?_⟩
    obtain ⟨rv, co⟩ := rq
    cases rv with
    | user login name => simpa [decodeReviewRequest] using hc
    | team name =>
      rcases hc with hc | hc
      · exact Or.inl (by simpa [decodeReviewRequest] using hc)
      · exact Or.inr (by simpa [decodeReviewRequest] using hc.symm)

theorem select_of_not_before (me prAuthor : GoString) (st : ScanState)
    (h : st.latestAuthorInteraction.at_ ≤ st.latestMeInteraction.at_) :
    select me prAuthor st
      = { status := checkMark, latestBody := st.latestMeInteraction.body, latestAuthor := me } := by
  simp [select, Interaction.Before, not_lt.mpr h]

theorem select_of_before (me prAuthor : GoString) (st : ScanState)
    (h : st.latestMeInteraction.at_ < st.latestAuthorInteraction.at_) :
    select me prAuthor st
      = { status := warning, latestBody := st.latestAuthorInteraction.body,
          latestAuthor := prAuthor } := by
  simp [select, Interaction.Before, h]

/-- C3: for an engaged pull request of somebody else, with latest-me and latest-author the
running interactions after the scans: when latest-me is at or after latest-author the status is
the check mark, the speaker is `me` and the selected body is the body of latest-me; when
latest-author is strictly after latest-me the status is the warning sign, the speaker is the
author and the selected body is the body of latest-author; equal instants, both zero included,
give the check mark with speaker `me`.  The two glyphs differ. -/
theorem C3_status_rule (me : GoString) (pr : PR) (hne : pr.authorLogin ≠ me)
    (heng : ((scan me pr).hasReviewed || (scan me pr).hasCommented
        || (scan me pr).hasBeenRequestedToReview) = true) :
    ((scan me pr).latestAuthorInteraction.at_ ≤ (scan me pr).latestMeInteraction.at_ →
        select me pr.authorLogin (scan me pr)
            = { status := checkMark, latestBody := (scan me pr).latestMeInteraction.body,
                latestAuthor := me }
          ∧ engagedBody me pr
            = statusLine pr { status := checkMark,
                              latestBody := (scan me pr).latestMeInteraction.body,
                              latestAuthor := me }
              :: (if (scan me pr).latestMeInteraction.body = [] then []
                  else [snippetLine { status := checkMark,
                                      latestBody := (scan me pr).latestMeInteraction.body,
                                      latestAuthor := me }]))
      ∧ ((scan me pr).latestMeInteraction.at_ < (scan me pr).latestAuthorInteraction.at_ →
        select me pr.authorLogin (scan me pr)
            = { status := warning, latestBody := (scan me pr).latestAuthorInteraction.body,
                latestAuthor := pr.authorLogin }
          ∧ engagedBody me pr
            = statusLine pr { status := warning,
                              latestBody := (scan me pr).latestAuthorInteraction.body,
                              latestAuthor := pr.authorLogin }
              :: (if (scan me pr).latestAuthorInteraction.body = [] then []
                  else [snippetLine { status := warning,
                                      latestBody := (scan me pr).latestAuthorInteraction.body,
                                      latestAuthor := pr.authorLogin }]))
      ∧ ((scan me pr).latestMeInteraction.at_ = (scan me pr).latestAuthorInteraction.at_ →
        (select me pr.authorLogin (scan me pr)).status = checkMark
          ∧ (select me pr.authorLogin (scan me pr)).latestAuthor = me)
      ∧ checkMark ≠ warning := by
  refine ⟨fun h => ?_, fun h => ?_, fun h => ?_, by decide⟩
  · have hs := select_of_not_before me pr.authorLogin (scan me pr) h
    refine ⟨hs, ?_⟩
    rw [engagedBody_engaged me pr hne heng, hs]
  · have hs := select_of_before me pr.authorLogin (scan me pr) h
    refine ⟨hs, ?_⟩
    rw [engagedBody_engaged me pr hne heng, hs]
  · rw [select_of_not_before me pr.authorLogin (scan me pr) (le_of_eq h.symm)]
    exact ⟨rfl, rfl⟩

theorem C3_status_rule_witness :
    (((pr10 1 2 [] [] []).authorLogin ≠ ascii "bob"
        ∧ (scan (ascii "bob") (pr10 1 2 [] [] [])).latestMeInteraction.at_
            < (scan (ascii "bob") (pr10 1 2 [] [] [])).latestAuthorInteraction.at_)
        ∧ select (ascii "bob") (ascii "alice") (scan (ascii "bob") (pr10 1 2 [] [] []))
            = { status := warning, latestBody := aliceBody, latestAuthor := ascii "alice" })
      ∧ (((pr10 2 1 [] [] []).authorLogin ≠ ascii "bob"
        ∧ (scan (ascii "bob") (pr10 2 1 [] [] [])).latestAuthorInteraction.at_
            ≤ (scan (ascii "bob") (pr10 2 1 [] [] [])).latestMeInteraction.at_)
        ∧ select (ascii "bob") (ascii "alice") (scan (ascii "bob") (pr10 2 1 [] [] []))
            = { status := checkMark, latestBody := ascii "looks fine",
                latestAuthor := ascii "bob" })
      ∧ ((pr13.authorLogin ≠ ascii "bob"
        ∧ (scan (ascii "bob") pr13).latestMeInteraction.at_
            = (scan (ascii "bob") pr13).latestAuthorInteraction.at_)
        ∧ (select (ascii "bob") pr13.authorLogin (scan (ascii "bob") pr13)).status = checkMark
        ∧ (select (ascii "bob") pr13.authorLogin (scan (ascii "bob") pr13)).latestAuthor
            = ascii "bob") :=
  ⟨⟨⟨by decide, by decide⟩,
      ((C3_status_rule (ascii "bob") (pr10 1 2 [] [] []) (by decide) (by decide)).2.1
        (by decide)).1⟩,
    ⟨⟨by decide, by decide⟩,
      ((C3_status_rule (ascii "bob") (pr10 2 1 [] [] []) (by decide) (by decide)).1
        (by decide)).1⟩,
    ⟨by decide, by decide⟩,
    (C3_status_rule (ascii "bob") pr13 (by decide) (by decide)).2.2.1 (by decide)⟩

theorem runningInv_init : RunningInv ScanState.init := by
  simp [RunningInv, ScanState.init, Interaction.zero]

theorem keepLater_inv (cur x : Interaction)
    (h : 0 ≤ cur.at_ ∧ (cur.at_ = 0 → cur.body = [])) :
    0 ≤ (keepLater cur x).at_ ∧ ((keepLater cur x).at_ = 0 → (keepLater cur x).body = []) := by
  unfold keepLater Interaction.Before
  by_cases hb : cur.at_ < x.at_
  · rw [if_pos (by simpa using hb)]
    have hpos : 0 < x.at_ := lt_of_le_of_lt h.1 hb
    exact ⟨le_of_lt hpos, fun h0 => absurd h0 (ne_of_gt hpos)⟩
  · rw [if_neg (by simpa using hb)]
    exact h

theorem foldl_keepLater_inv (l : List Interaction) (seed : Interaction)
    (h : 0 ≤ seed.at_ ∧ (seed.at_ = 0 → seed.body = [])) :
    0 ≤ (l.foldl keepLater seed).at_
      ∧ ((l.foldl keepLater seed).at_ = 0 → (l.foldl keepLater seed).body = []) := by
  induction l generalizing seed with
  | nil => exact h
  | cons x xs ih => exact ih (keepLater seed x) (keepLater_inv seed x h)

theorem runningInv_reviewStep (me : GoString) (st : ScanState) (r : PRReview)
    (h : RunningInv st) : RunningInv (reviewStep me st r) := by
  have e : reviewStep me st r = [r].foldl (reviewStep me) st := rfl
  rw [e, foldl_reviewStep]
  exact ⟨foldl_keepLater_inv _ _ h.1, h.2⟩

theorem runningInv_commentStep (me prAuthor : GoString) (st : ScanState) (c : IssueComment)
    (h : RunningInv st) : RunningInv (commentStep me prAuthor st c) := by
  have e : commentStep me prAuthor st c = [c].foldl (commentStep me prAuthor) st := rfl
  rw [e, foldl_commentStep]
  exact ⟨foldl_keepLater_inv _ _ h.1, foldl_keepLater_inv _ _ h.2⟩

theorem runningInv_requestStep (me : GoString) (st : ScanState) (rr : ReviewRequest)
    (h : RunningInv st) : RunningInv (requestStep me st rr) := by
  have e : requestStep me st rr = [rr].foldl (requestStep me) st := rfl
  rw [e, foldl_requestStep]
  exact h

theorem runningInv_scan (me : GoString) (pr : PR) : RunningInv (scan me pr) := by
  rw [scan_eq]
  exact ⟨foldl_keepLater_inv _ _ ⟨le_refl _, fun _ => rfl⟩,
    foldl_keepLater_inv _ _ ⟨le_refl _, fun _ => rfl⟩⟩

/-- C10: the running interactions keep the invariant that one at the zero instant has an empty
body (it holds at the declarations and every step of the three scans keeps it); so for an engaged
pull request of somebody else whose latest-me and latest-author are both at the zero instant the
selected body is empty and only the status line, with the check mark, is written.  In general
the snippet line is written, after the status line, if and only if the selected body is not
empty. -/
theorem C10_snippet_iff_body (me : GoString) (pr : PR) (hne : pr.authorLogin ≠ me)
    (heng : ((scan me pr).hasReviewed || (scan me pr).hasCommented
        || (scan me pr).hasBeenRequestedToReview) = true) :
    (RunningInv ScanState.init
        ∧ (∀ st r, RunningInv st → RunningInv (reviewStep me st r))
        ∧ (∀ st c, RunningInv st → RunningInv (commentStep me pr.authorLogin st c))
        ∧ (∀ st rr, RunningInv st → RunningInv (requestStep me st rr))
        ∧ RunningInv (scan me pr))
      ∧ ((scan me pr).latestMeInteraction.at_ = 0 →
          (scan me pr).latestAuthorInteraction.at_ = 0 →
          (select me pr.authorLogin (scan me pr)).latestBody = []
            ∧ engagedBody me pr
                = [statusLine pr { status := checkMark, latestBody := [], latestAuthor := me }])
      ∧ ((select me pr.authorLogin (scan me pr)).latestBody ≠ [] →
          engagedBody me pr
            = [statusLine pr (select me pr.authorLogin (scan me pr)),
               snippetLine (select me pr.authorLogin (scan me pr))])
      ∧ ((select me pr.authorLogin (scan me pr)).latestBody = [] →
          engagedBody me pr = [statusLine pr (select me pr.authorLogin (scan me pr))])
      ∧ ((∃ speaker text,
            Output.printf "\t%s - %s\n" [Arg.str speaker, Arg.str text] ∈ engagedBody me pr)
          ↔ (select me pr.authorLogin (scan me pr)).latestBody ≠ []) := by
  have hbody := engagedBody_engaged me pr hne heng
  refine ⟨⟨runningInv_init, fun st r => runningInv_reviewStep me st r,
    fun st c => runningInv_commentStep me pr.authorLogin st c,
    fun st rr => runningInv_requestStep me st rr, runningInv_scan me pr⟩, ?_, ?_, ?_, ?_⟩
  · intro hm ha
    have hs := select_of_not_before me pr.authorLogin (scan me pr) (by rw [hm, ha])
    have hb : (scan me pr).latestMeInteraction.body = [] := (runningInv_scan me pr).1.2 hm
    rw [hb] at hs
    refine ⟨by rw [hs], ?_⟩
    rw [hbody, hs]
    rfl
  · intro h
    rw [hbody, if_neg h]
  · intro h
    rw [hbody, if_pos h]
  · by_cases h : (select me pr.authorLogin (scan me pr)).latestBody = []
    · rw [hbody, if_pos h]
      simp [h, statusLine]
    · rw [hbody, if_neg h]
      simp only [ne_eq, h, not_false_eq_true, iff_true]
      exact ⟨_, _, List.mem_cons_of_mem _ (List.mem_singleton.mpr rfl)⟩

theorem C10_snippet_iff_body_witness :
    (pr13.authorLogin ≠ ascii "bob"
        ∧ (scan (ascii "bob") pr13).latestMeInteraction.at_ = 0
        ∧ (scan (ascii "bob") pr13).latestAuthorInteraction.at_ = 0
        ∧ engagedBody (ascii "bob") pr13
            = [statusLine pr13
                { status := checkMark, latestBody := [], latestAuthor := ascii "bob" }])
      ∧ (pr14.authorLogin ≠ ascii "bob"
        ∧ (select (ascii "bob") pr14.authorLogin (scan (ascii "bob") pr14)).latestBody = []
        ∧ engagedBody (ascii "bob") pr14
            = [statusLine pr14 (select (ascii "bob") pr14.authorLogin (scan (ascii "bob") pr14))])
      ∧ ((pr10 1 2 [] [] []).authorLogin ≠ ascii "bob"
        ∧ (select (ascii "bob") (pr10 1 2 [] [] []).authorLogin
              (scan (ascii "bob") (pr10 1 2 [] [] []))).latestBody ≠ []
        ∧ engagedBody (ascii "bob") (pr10 1 2 [] [] [])
            = [statusLine (pr10 1 2 [] [] [])
                (select (ascii "bob") (pr10 1 2 [] [] []).authorLogin
                  (scan (ascii "bob") (pr10 1 2 [] [] []))),
               snippetLine
                (select (ascii "bob") (pr10 1 2 [] [] []).authorLogin
                  (scan (ascii "bob") (pr10 1 2 [] [] [])))]) :=
  ⟨⟨by decide, by decide, by decide,
      ((C10_snippet_iff_body (ascii "bob") pr13 (by decide) (by decide)).2.1 (by decide)
        (by decide)).2⟩,
    ⟨by decide, by decide,
      (C10_snippet_iff_body (ascii "bob") pr14 (by decide) (by decide)).2.2.2.1 (by decide)⟩,
    by decide, by decide,
    (C10_snippet_iff_body (ascii "bob") (pr10 1 2 [] [] []) (by decide) (by decide)).2.2.1
      (by decide)⟩

/-- C4 (the code departs from it): a body of exactly 100 bytes is not returned as it is by
`shortBody`; the test of main.go 200 is `len(body) < 100`, so the body falls to main.go 203 and
comes back followed by "...". -/
theorem C4_exactly_100_gets_ellipsis (body : GoString) (h : body.length = 100) :
    shortBody body = body ++ ascii "..." ∧ shortBody body ≠ body := by
  have e : shortBody body = body ++ ascii "..." := by
    unfold shortBody
    simp only [h, lt_irrefl, if_false]
    rw [List.take_of_length_le (le_of_eq h)]
  refine ⟨e, fun hc => ?_⟩
  have hl := congrArg List.length hc
  rw [e, List.length_append] at hl
  have h3 : (ascii "...").length = 3 := by decide
  omega

theorem C4_exactly_100_gets_ellipsis_witness :
    (List.replicate 100 97).length = 100
      ∧ shortBody (List.replicate 100 97) = List.replicate 100 97 ++ ascii "..."
      ∧ shortBody (List.replicate 100 97) ≠ List.replicate 100 97 :=
  ⟨by decide, C4_exactly_100_gets_ellipsis (List.replicate 100 97) (by decide)⟩

/-- C5, with lengths counted in bytes as `len` and `body[:100]` count them: for a body longer
than 100 bytes `shortBody` is its first 100 bytes followed by "...",
103 bytes in all, whose first 100 are the first 100 of the body and start the body; for a body
shorter than 100 bytes `shortBody` is the body. -/
theorem C5_truncation (body : GoString) :
    (100 < body.length →
        shortBody body = body.take 100 ++ ascii "..."
          ∧ (shortBody body).length = 103
          ∧ (shortBody body).take 100 = body.take 100
          ∧ body.take 100 <+: body)
      ∧ (body.length < 100 → shortBody body = body) := by
  constructor
  · intro h
    have e : shortBody body = body.take 100 ++ ascii "..." := by
      unfold shortBody
      simp only [not_lt.mpr (le_of_lt h), if_false]
    have hl : (body.take 100).length = 100 := by
      rw [List.length_take]; omega
    have h3 : (ascii "...").length = 3 := by decide
    refine ⟨e, ?_, ?_, List.take_prefix _ _⟩
    · rw [e, List.length_append, hl, h3]
    · rw [e, List.take_append_of_le_length (le_of_eq hl.symm), List.take_take]
      simp
  · intro h
    unfold shortBody
    simp only [h, if_true]

theorem C5_truncation_witness :
    (100 < (List.replicate 101 97).length
        ∧ shortBody (List.replicate 101 97) = List.replicate 100 97 ++ [46, 46, 46]
        ∧ (shortBody (List.replicate 101 97)).length = 103)
      ∧ ((List.replicate 99 97).length < 100
        ∧ shortBody (List.replicate 99 97) = List.replicate 99 97) :=
  ⟨⟨by decide,
      ((C5_truncation (List.replicate 101 97)).1 (by decide)).1.trans (by decide),
      ((C5_truncation (List.replicate 101 97)).1 (by decide)).2.1⟩,
    by decide, (C5_truncation (List.replicate 99 97)).2 (by decide)⟩

/-- C5 as worded, with lengths counted in characters, fails: a text of 60 characters of two bytes
each (fewer than 100 characters, 120 bytes) does not come back as it is, it is cut to its first
100 bytes followed by "...". -/
theorem C5_characters_counterexample :
    ¬ ((∀ s : String, 100 < s.length →
          shortBody (utf8 s) = utf8 (String.mk (s.toList.take 100)) ++ ascii "...")
        ∧ (∀ s : String, s.length < 100 → shortBody (utf8 s) = utf8 s)) := by
  intro h
  have h60 : sixtyAccents.length < 100 := by decide
  have hl := congrArg List.length (h.2 sixtyAccents h60)
  have h120 : (utf8 sixtyAccents).length = 120 := by decide
  have h3 : (ascii "...").length = 3 := by decide
  have hs : (shortBody (utf8 sixtyAccents)).length = 103 := by
    unfold shortBody
    simp only [h120, List.length_append, List.length_take, h3]
    decide
  rw [hs, h120] at hl
  exact absurd hl (by decide)

/-- C7: the scenario of pull request 10 with author "alice" and `me` = "bob".  With the review
of "bob" ("looks fine") at 2024-01-01T00:00:00Z and the issue comment of "alice" at
2024-01-02T00:00:00Z the section is the status line with the warning sign for number 10 and
the snippet line with speaker "alice" and the first 100 bytes of her body followed by "...";
with the two instants exchanged it is the status line with the check mark and the snippet line
with speaker "bob" and "looks fine" as it is. -/
theorem C7_scenario_pr10 (title permalink state : GoString) :
    engagedSection (ascii "bob")
        [pr10 (midnightUTC 2024 1 1) (midnightUTC 2024 1 2) title permalink state]
      = [Output.printf "%s #%d -- %s -- %s \n"
            [Arg.str warning, Arg.int 10, Arg.str title, Arg.str permalink],
         Output.printf "\t%s - %s\n"
            [Arg.str (ascii "alice"), Arg.str (aliceBody.take 100 ++ ascii "...")]]
    ∧ engagedSection (ascii "bob")
        [pr10 (midnightUTC 2024 1 2) (midnightUTC 2024 1 1) title permalink state]
      = [Output.printf "%s #%d -- %s -- %s \n"
            [Arg.str checkMark, Arg.int 10, Arg.str title, Arg.str permalink],
         Output.printf "\t%s - %s\n" [Arg.str (ascii "bob"), Arg.str (ascii "looks fine")]] := by
  constructor <;> rfl

/-- The instants of the scenario against the Unix clock: 1970-01-01 is 62135596800 seconds after
the zero instant and 2024-01-01T00:00:00Z is Unix second 1704067200. -/
theorem midnightUTC_values :
    midnightUTC 1 1 1 = 0
      ∧ midnightUTC 1970 1 1 = 62135596800 * 1000000000
      ∧ midnightUTC 2024 1 1 = (62135596800 + 1704067200) * 1000000000
      ∧ midnightUTC 2024 1 2 = midnightUTC 2024 1 1 + 86400 * 1000000000 := by
  decide

/-- The output of `main` is the description, the first heading, the "My PRs" section, the second
heading and the "PRs engaged with" section. -/
theorem mainOutput_eq (me : GoString) (q : PRQuery) :
    mainOutput me q
      = [Output.println q.description, Output.println (ascii "My PRs\n")]
          ++ myPRsSection me q.nodes
          ++ [Output.println (ascii "\nPRs engaged with\n")]
          ++ engagedSection me q.nodes := by
  simp [mainOutput, myPRsSection, engagedSection, myPRsLoop_eq, engagedLoop_eq]

theorem meInteractions_perm (me : GoString) (pr pr' : PR)
    (hr : pr'.reviews.Perm pr.reviews) (hc : pr'.issueComments.Perm pr.issueComments) :
    (meInteractions me pr').Perm (meInteractions me pr) := by
  unfold meInteractions
  exact ((hr.filter _).map _).append ((hc.filter _).map _)

theorem authorInteractions_perm (pr pr' : PR) (ha : pr'.authorLogin = pr.authorLogin)
    (hc : pr'.issueComments.Perm pr.issueComments) :
    (authorInteractions pr').Perm (authorInteractions pr) := by
  unfold authorInteractions
  rw [ha]
  exact (hc.filter _).map _

theorem foldl_keepLater_zero_mem (l : List Interaction) (h : ∃ i ∈ l, 0 < i.at_) :
    l.foldl keepLater Interaction.zero ∈ l := by
  rcases foldl_keepLater_mem l Interaction.zero with h1 | ⟨h1, _⟩
  · obtain ⟨i, hi, hpos⟩ := h
    have := foldl_keepLater_ge l Interaction.zero i hi
    rw [h1] at this
    exact absurd hpos (not_lt.mpr this)
  · exact h1

/-- C6: latest wins, whatever the scan order.  For either party (for `me` its fetched reviews and
issue comments, for the author its issue comments) the instant of the running latest interaction
after the scans is the maximum of the party's instants, seeded with the zero default; it is at or
after every interaction of the party, and it is one of them as soon as one is after the zero
default; of two interactions at instants t1 < t2 it is not the one at t1; and when the instants
of the party are pairwise distinct the running latest interaction is the same for every
permutation of the fetched reviews and of the fetched issue comments. -/
theorem C6_latest_wins (me : GoString) (pr : PR) :
    ((scan me pr).latestMeInteraction.at_
          = ((meInteractions me pr).map Interaction.at_).foldl max 0
        ∧ (scan me pr).latestAuthorInteraction.at_
          = ((authorInteractions pr).map Interaction.at_).foldl max 0)
      ∧ ((∀ i ∈ meInteractions me pr, i.at_ ≤ (scan me pr).latestMeInteraction.at_)
        ∧ (∀ i ∈ authorInteractions pr, i.at_ ≤ (scan me pr).latestAuthorInteraction.at_))
      ∧ (((∃ i ∈ meInteractions me pr, 0 < i.at_) →
            (scan me pr).latestMeInteraction ∈ meInteractions me pr)
        ∧ ((∃ i ∈ authorInteractions pr, 0 < i.at_) →
            (scan me pr).latestAuthorInteraction ∈ authorInteractions pr))
      ∧ ((∀ i1 ∈ meInteractions me pr, ∀ i2 ∈ meInteractions me pr, i1.at_ < i2.at_ →
            (scan me pr).latestMeInteraction.at_ ≠ i1.at_)
        ∧ (∀ i1 ∈ authorInteractions pr, ∀ i2 ∈ authorInteractions pr, i1.at_ < i2.at_ →
            (scan me pr).latestAuthorInteraction.at_ ≠ i1.at_))
      ∧ (∀ pr2 : PR, pr2.authorLogin = pr.authorLogin → pr2.reviews.Perm pr.reviews →
          pr2.issueComments.Perm pr.issueComments →
          (((meInteractions me pr).map Interaction.at_).Nodup →
              (scan me pr2).latestMeInteraction = (scan me pr).latestMeInteraction)
            ∧ (((authorInteractions pr).map Interaction.at_).Nodup →
              (scan me pr2).latestAuthorInteraction = (scan me pr).latestAuthorInteraction)) := by
  have hm : (scan me pr).latestMeInteraction
      = (meInteractions me pr).foldl keepLater Interaction.zero := by rw [scan_eq]
  have ha : (scan me pr).latestAuthorInteraction
      = (authorInteractions pr).foldl keepLater Interaction.zero := by rw [scan_eq]
  refine ⟨⟨?_, ?_⟩, ⟨?_, ?_⟩, ⟨?_, ?_⟩, ⟨?_, ?_⟩, ?_⟩
  · rw [hm, foldl_keepLater_at]; rfl
  · rw [ha, foldl_keepLater_at]; rfl
  · rw [hm]; exact foldl_keepLater_ge _ _
  · rw [ha]; exact foldl_keepLater_ge _ _
  · rw [hm]; exact foldl_keepLater_zero_mem _
  · rw [ha]; exact foldl_keepLater_zero_mem _
  · intro i1 _ i2 h2 hlt heq
    have := foldl_keepLater_ge (meInteractions me pr) Interaction.zero i2 h2
    rw [← hm, heq] at this
    exact absurd hlt (not_lt.mpr this)
  · intro i1 _ i2 h2 hlt heq
    have := foldl_keepLater_ge (authorInteractions pr) Interaction.zero i2 h2
    rw [← ha, heq] at this
    exact absurd hlt (not_lt.mpr this)
  · intro pr2 hau hr hc
    constructor
    · intro hnd
      rw [hm, scan_eq]
      exact foldl_keepLater_perm _ _ _ (meInteractions_perm me pr pr2 hr hc) hnd
    · intro hnd
      rw [ha, scan_eq]
      exact foldl_keepLater_perm _ _ _ (authorInteractions_perm pr pr2 hau hc) hnd

theorem C6_latest_wins_witness :
    ((∃ i ∈ meInteractions (ascii "bob") pr15, 0 < i.at_)
        ∧ (scan (ascii "bob") pr15).latestMeInteraction ∈ meInteractions (ascii "bob") pr15
        ∧ (scan (ascii "bob") pr15).latestMeInteraction.at_ = 5)
      ∧ ((({ body := ascii "b4", at_ := 4 } : Interaction) ∈ meInteractions (ascii "bob") pr15
          ∧ ({ body := ascii "b5", at_ := 5 } : Interaction) ∈ meInteractions (ascii "bob") pr15
          ∧ (4 : Int) < 5)
        ∧ (scan (ascii "bob") pr15).latestMeInteraction.at_ ≠ 4)
      ∧ ((pr15Reversed.authorLogin = pr15.authorLogin
          ∧ pr15Reversed.reviews.Perm pr15.reviews
          ∧ pr15Reversed.issueComments.Perm pr15.issueComments
          ∧ ((meInteractions (ascii "bob") pr15).map Interaction.at_).Nodup
          ∧ ((authorInteractions pr15).map Interaction.at_).Nodup)
        ∧ (scan (ascii "bob") pr15Reversed).latestMeInteraction
            = (scan (ascii "bob") pr15).latestMeInteraction
        ∧ (scan (ascii "bob") pr15Reversed).latestAuthorInteraction
            = (scan (ascii "bob") pr15).latestAuthorInteraction) :=
  ⟨⟨by decide, (C6_latest_wins (ascii "bob") pr15).2.2.1.1 (by decide), by decide⟩,
    ⟨⟨by decide, by decide, by decide⟩,
      (C6_latest_wins (ascii "bob") pr15).2.2.2.1.1 { body := ascii "b4", at_ := 4 } (by decide)
        { body := ascii "b5", at_ := 5 } (by decide) (by decide)⟩,
    ⟨by decide, List.Perm.refl _, List.reverse_perm _, by decide, by decide⟩,
    ((C6_latest_wins (ascii "bob") pr15).2.2.2.2 pr15Reversed (by decide) (List.Perm.refl _)
      (List.reverse_perm _)).1 (by decide),
    ((C6_latest_wins (ascii "bob") pr15).2.2.2.2 pr15Reversed (by decide) (List.Perm.refl _)
      (List.reverse_perm _)).2 (by decide)⟩

end PRStatusChecker
